import Mathlib

/-!
Shallow embedding of the autometrics-ts call-interception engine and of the
push-gateway export pipeline (both in packages/autometrics/src/wrappers.ts),
together with proofs about the specified behaviour.
-/

namespace Autometrics

/-- Attributes as used by the wrappers: a flat string-keyed map, modelled as
the ordered key/value list produced by the corresponding JS object literal.
A value of `none` models the JS value `undefined` (the key is still present,
as it is in a JS object literal such as `{ caller }` with `caller` being
`undefined`). -/
abbrev Attrs := List (String × Option String)

/-- Value stored under key `k`; outer `none` means the key is absent. -/
def labelValue (k : String) (ls : Attrs) : Option (Option String) :=
  (ls.find? (fun p => p.1 == k)).map (·.2)

/-- Objective as consumed by `autometrics` (wrappers.ts:246-261): a name, an
optional success-rate percentile, and an optional latency target given as a
pair of threshold and percentile. Percentiles and thresholds are string
enums in the source, so they are plain strings here. -/
structure Objective where
  name : String
  successRate : Option String
  latency : Option (String × String)
  deriving DecidableEq, Repr

/-- Counter objective label fragment (wrappers.ts:235-238 with the mutations
at 246-261 applied): both keys always present, defaulting to the empty
string; `objective_name` is set from the objective, `objective_percentile`
from its success rate when given. -/
def counterObjectiveAttributes (objective : Option Objective) : Attrs :=
  match objective with
  | none => [("objective_name", some ""), ("objective_percentile", some "")]
  | some o =>
      [("objective_name", some o.name),
       ("objective_percentile",
        some (match o.successRate with | some p => p | none => ""))]

/-- Histogram objective label fragment (wrappers.ts:240-244 with the
mutations at 246-256 applied): all three keys always present, defaulting to
the empty string; the latency pair, when given, fills the threshold and the
percentile. -/
def histogramObjectiveAttributes (objective : Option Objective) : Attrs :=
  match objective with
  | none =>
      [("objective_name", some ""), ("objective_latency_threshold", some ""),
       ("objective_percentile", some "")]
  | some o =>
      [("objective_name", some o.name),
       ("objective_latency_threshold",
        some (match o.latency with | some tp => tp.1 | none => "")),
       ("objective_percentile",
        some (match o.latency with | some tp => tp.2 | none => ""))]

/-- One observable side effect of the instrumentation engine: a counter add,
a histogram record, an up-down-counter (gauge) add, a diagnostic trace, or
the `metricsRecorded()` notification. -/
inductive Emission where
  | counterAdd (value : Nat) (labels : Attrs)
  | histogramRecord (value : Nat) (labels : Attrs)
  | gaugeAdd (delta : Int) (labels : Attrs)
  | traceMsg (msg : String)
  | metricsRecorded
  deriving DecidableEq, Repr

/-- Resolved configuration of one wrap call (wrappers.ts:196-221), after the
function and module names have been resolved successfully. The predicates
may throw, which is modelled by `Except Unit Bool`: `Except.error` is a
thrown exception, `Except.ok` a returned boolean. -/
structure WrapConfig (α ε : Type) where
  functionName : String
  moduleName : Option String
  objective : Option Objective := none
  trackConcurrency : Bool := false
  recordErrorIf : Option (α → Except Unit Bool) := none
  recordSuccessIf : Option (ε → Except Unit Bool) := none

/-- State captured by one `autometrics` wrap call and shared by all
invocations of the returned wrapper. `caller` is read from the caller
context exactly once, at wrap time (wrappers.ts:278, in the body of
`autometrics`, before the wrapper closure is returned at line 288).
The reader `getALSCaller` itself lives in utils.ts, which is not under
src/. Modelled from the spec: reading the caller context yields the name
of the nearest enclosing instrumented function, or the no-caller sentinel
(`none`, i.e. JS `undefined`) outside every scope. -/
structure Wrapped (α ε : Type) where
  cfg : WrapConfig α ε
  caller : Option String

/-- Counter label set (wrappers.ts:280-286 and 298-304 and 324-330): the JS
object `function, module, result, caller` spread with the counter objective
fragment. -/
def counterLabels (functionName : String) (moduleName : Option String)
    (result : String) (caller : Option String)
    (objective : Option Objective) : Attrs :=
  [("function", some functionName), ("module", moduleName),
   ("result", some result), ("caller", caller)]
    ++ counterObjectiveAttributes objective

/-- Histogram label set (wrappers.ts:306-311 and 332-337): the JS object
`function, module, caller` spread with the histogram objective fragment. -/
def histogramLabels (functionName : String) (moduleName : Option String)
    (caller : Option String) (objective : Option Objective) : Attrs :=
  [("function", some functionName), ("module", moduleName),
   ("caller", caller)]
    ++ histogramObjectiveAttributes objective

/-- Gauge label set used on the increment and on the success-path decrement
(wrappers.ts:290-293 and 313-316): function and module only. -/
def gaugeLabels (functionName : String) (moduleName : Option String) : Attrs :=
  [("function", some functionName), ("module", moduleName)]

/-- Gauge label set used on the error-path decrement (wrappers.ts:339-343):
function, module and additionally the caller. -/
def gaugeErrorLabels (functionName : String) (moduleName : Option String)
    (caller : Option String) : Attrs :=
  [("function", some functionName), ("module", moduleName),
   ("caller", caller)]

/-- Wrap-time phase of `autometrics` (wrappers.ts:263-286) for an input whose
function name resolved successfully: read the caller context active at wrap
time (`alsCtx`), emit the zero-valued counter observation that pre-registers
the series, and capture the wrapper state shared by later invocations. -/
def autometricsWrap {α ε : Type} (alsCtx : Option String)
    (cfg : WrapConfig α ε) : Wrapped α ε × List Emission :=
  ({ cfg := cfg, caller := alsCtx },
   [.counterAdd 0
      (counterLabels cfg.functionName cfg.moduleName "ok" alsCtx
        cfg.objective)])

/-- Success-path recording (`onSuccess`, wrappers.ts:295-319): one counter
increment with result ok, one histogram record, the gauge decrement when
concurrency tracking is on, then `metricsRecorded()`. -/
def onSuccess {α ε : Type} (w : Wrapped α ε)
    (autometricsDuration : Nat) : List Emission :=
  [.counterAdd 1
     (counterLabels w.cfg.functionName w.cfg.moduleName "ok" w.caller
       w.cfg.objective),
   .histogramRecord autometricsDuration
     (histogramLabels w.cfg.functionName w.cfg.moduleName w.caller
       w.cfg.objective)]
    ++ (if w.cfg.trackConcurrency then
          [.gaugeAdd (-1) (gaugeLabels w.cfg.functionName w.cfg.moduleName)]
        else [])
    ++ [.metricsRecorded]

/-- Error-path recording (`onError`, wrappers.ts:321-346): one counter
increment with result error, one histogram record, the gauge decrement
(carrying the extra caller label) when concurrency tracking is on, then
`metricsRecorded()`. -/
def onError {α ε : Type} (w : Wrapped α ε)
    (autometricsDuration : Nat) : List Emission :=
  [.counterAdd 1
     (counterLabels w.cfg.functionName w.cfg.moduleName "error" w.caller
       w.cfg.objective),
   .histogramRecord autometricsDuration
     (histogramLabels w.cfg.functionName w.cfg.moduleName w.caller
       w.cfg.objective)]
    ++ (if w.cfg.trackConcurrency then
          [.gaugeAdd (-1)
             (gaugeErrorLabels w.cfg.functionName w.cfg.moduleName w.caller)]
        else [])
    ++ [.metricsRecorded]

/-- Classification of a non-thrown result (`recordSuccess`,
wrappers.ts:348-359): when `recordErrorIf` is absent the call is recorded
as a success; when present and returning true the call is recorded as an
error; when present and throwing, the catch block records a success and
traces the predicate failure. -/
def recordSuccess {α ε : Type} (w : Wrapped α ε) (d : Nat)
    (returnValue : α) : List Emission :=
  match w.cfg.recordErrorIf with
  | none => onSuccess w d
  | some p =>
      match p returnValue with
      | .ok true => onError w d
      | .ok false => onSuccess w d
      | .error _ =>
          onSuccess w d ++ [.traceMsg "Error in recordErrorIf function: "]

/-- Classification of a thrown or rejected error (`recordError`,
wrappers.ts:361-372): when `recordSuccessIf` is absent the call is recorded
as an error; when present and returning true the call is recorded as a
success; when present and throwing, the catch block records an error and
traces the predicate failure. -/
def recordError {α ε : Type} (w : Wrapped α ε) (d : Nat)
    (error : ε) : List Emission :=
  match w.cfg.recordSuccessIf with
  | none => onError w d
  | some p =>
      match p error with
      | .ok true => onSuccess w d
      | .ok false => onError w d
      | .error _ =>
          onError w d ++ [.traceMsg "Error in recordSuccessIf function: "]

/-- Observable behaviour of one call to the underlying function: return a
plain value, throw synchronously, return a promise that fulfills, or return
a promise that rejects. -/
inductive FnOutcome (α ε : Type) where
  | ret (v : α)
  | thr (e : ε)
  | promiseOk (v : α)
  | promiseErr (e : ε)
  deriving DecidableEq, Repr

/-- One run of `instrumentedFn` (wrappers.ts:374-397). `bodyEms` collects the
emissions produced inside the underlying function (for example by nested
instrumented calls) before it settles, `outcome` is the behaviour of the
underlying function, and `d` the measured duration. The synchronous branch
records and returns the value or records and rethrows; the promise branch
records in the then and catch handlers and passes the settlement through.
The result pairs all emissions with the observable outcome of the call. -/
def instrumentedFn {α ε : Type} (w : Wrapped α ε) (d : Nat)
    (bodyEms : List Emission) (outcome : FnOutcome α ε) :
    List Emission × FnOutcome α ε :=
  match outcome with
  | .ret v => (bodyEms ++ recordSuccess w d v, .ret v)
  | .thr e => (bodyEms ++ recordError w d e, .thr e)
  | .promiseOk v => (bodyEms ++ recordSuccess w d v, .promiseOk v)
  | .promiseErr e => (bodyEms ++ recordError w d e, .promiseErr e)

/-- One invocation of the wrapper closure returned by `autometrics`
(wrappers.ts:288-404): record the start time, increment the concurrency
gauge when tracking is on, then run `instrumentedFn` (inside the caller
context scope when async-local storage is available). -/
def wrappedCall {α ε : Type} (w : Wrapped α ε) (d : Nat)
    (bodyEms : List Emission) (outcome : FnOutcome α ε) :
    List Emission × FnOutcome α ε :=
  let inner := instrumentedFn w d bodyEms outcome
  ((if w.cfg.trackConcurrency then
      [Emission.gaugeAdd 1 (gaugeLabels w.cfg.functionName w.cfg.moduleName)]
    else []) ++ inner.1,
   inner.2)

/-- Caller context installed for the dynamic extent of one invocation
(wrappers.ts:399-401: `asyncLocalStorage.run` with the store
`caller: functionName` around `instrumentedFn`). Any caller-context read
performed while the body runs observes this value. -/
def invocationContext {α ε : Type} (w : Wrapped α ε) : Option String :=
  some w.cfg.functionName

/-- Counter emissions of a run, as value/label pairs. -/
def counterIncrements (ems : List Emission) : List (Nat × Attrs) :=
  ems.filterMap fun e =>
    match e with
    | .counterAdd v ls => some (v, ls)
    | _ => none

/-- Histogram emissions of a run, as label sets. -/
def histogramRecords (ems : List Emission) : List Attrs :=
  ems.filterMap fun e =>
    match e with
    | .histogramRecord _ ls => some ls
    | _ => none

/-- Diagnostic traces of a run. -/
def traceMessages (ems : List Emission) : List String :=
  ems.filterMap fun e =>
    match e with
    | .traceMsg m => some m
    | _ => none

/-- Gauge contribution of a single emission. -/
def gaugeDelta : Emission → Int
  | .gaugeAdd d _ => d
  | _ => 0

/-- Net gauge change of a run. -/
def gaugeNet (ems : List Emission) : Int :=
  (ems.map gaugeDelta).sum

/-- Number of gauge increments in a run. -/
def gaugeIncCount (ems : List Emission) : Nat :=
  ems.countP fun e =>
    match e with
    | .gaugeAdd d _ => d == 1
    | _ => false

/-- Number of gauge decrements in a run. -/
def gaugeDecCount (ems : List Emission) : Nat :=
  ems.countP fun e =>
    match e with
    | .gaugeAdd d _ => d == -1
    | _ => false

/-- Concrete wrap configuration named A, used by the caller-attribution
scenario. -/
def cfgA : WrapConfig Nat Nat :=
  { functionName := "A", moduleName := some "m" }

/-- Concrete wrap configuration named B, used by the caller-attribution
scenario. -/
def cfgB : WrapConfig Nat Nat :=
  { functionName := "B", moduleName := some "m" }

/-- Function A wrapped at module load, with no instrumented caller active. -/
def wA : Wrapped Nat Nat := (autometricsWrap none cfgA).1

/-- Function B wrapped at module load, with no instrumented caller active. -/
def wB : Wrapped Nat Nat := (autometricsWrap none cfgB).1

/-- The invocation of B performed inside the body of A while the
caller-context scope of the invocation of A is active. -/
def bInsideA : List Emission × FnOutcome Nat Nat :=
  wrappedCall wB 0 [] (.ret 7)

/-- The invocation of A whose body calls B and returns the value B
produced. -/
def aCall : List Emission × FnOutcome Nat Nat :=
  wrappedCall wA 0 bInsideA.1 (.ret 7)

end Autometrics

namespace PushGatewayExporter

/-- Behaviour of one delivery promise: the instant at which it settles and
whether it fulfills (a response arrived, of any status) or rejects (the
transport failed). -/
structure PromiseSpec where
  settleTime : Nat
  fulfills : Bool
  deriving DecidableEq, Repr

/-- Settlement of `Promise.all` over the given promises: when all of them
fulfill it fulfills once the last one has settled; otherwise it rejects at
the instant of the first rejection, ignoring promises that are still
pending. An empty input fulfills immediately (time zero). -/
def promiseAll (ps : List PromiseSpec) : PromiseSpec :=
  match (ps.filter fun p => !p.fulfills).map (·.settleTime) with
  | [] => ⟨(ps.map (·.settleTime)).foldl Nat.max 0, true⟩
  | t :: ts => ⟨ts.foldl Nat.min t, false⟩

/-- Mutable state of a `PushGatewayExporter` (wrappers.ts:598-612): the
in-flight delivery handles (`_sendingPromises`, as promise identifiers) and
the one-shot shutdown future (`_shutdownOnce`), modelled by its memoized
outcome: `none` while shutdown has not been requested, `some snapshot`
afterwards, where the snapshot is the in-flight list the teardown flush was
started on. -/
structure ExporterState where
  sendingPromises : List Nat
  shutdownResult : Option (List Nat)
  deriving DecidableEq, Repr

/-- Freshly constructed exporter: nothing in flight, shutdown not
requested. -/
def initial : ExporterState := ⟨[], none⟩

/-- The `_shutdownOnce.isCalled` flag: set synchronously as soon as the
first shutdown call starts, before its teardown flush settles. -/
def isCalled (s : ExporterState) : Bool := s.shutdownResult.isSome

/-- `forceFlush` (wrappers.ts:667-669): `Promise.all` over the in-flight
promises at call time, with a unit-valued then handler that preserves the
settlement. `env` gives the behaviour of each delivery promise. -/
def forceFlush (env : Nat → PromiseSpec) (s : ExporterState) : PromiseSpec :=
  promiseAll (s.sendingPromises.map env)

/-- Outcome passed to the export result callback. -/
inductive ExportResult where
  | success
  | failedShutdown
  | failedConcurrency
  | failedDelivery
  deriving DecidableEq, Repr

/-- Operations applied to the exporter: an export call (with the identifier
its delivery promise would get), the settlement of an in-flight delivery,
or a shutdown call. -/
inductive ExpOp where
  | exportOp (pid : Nat)
  | settleOp (pid : Nat)
  | shutdownOp
  deriving DecidableEq, Repr

/-- Events observable while operations run: a synchronous callback
invocation, the serialization of a snapshot, the start of a delivery, the
start of the one-shot teardown, and the outcome handed to a shutdown
caller (identified by the flush snapshot of the memoized teardown). -/
inductive ExpEvent where
  | callback (r : ExportResult)
  | serialized
  | deliveryStarted (pid : Nat)
  | teardownStarted (snapshot : List Nat)
  | shutdownReturned (snapshot : List Nat)
  deriving DecidableEq, Repr

/-- Admission test of wrappers.ts:626: the in-flight count has reached the
concurrency limit. `none` models the default limit `Infinity`, which no
count reaches. -/
def limitReached (limit : Option Nat) (inflight : Nat) : Bool :=
  match limit with
  | none => false
  | some l => decide (l ≤ inflight)

/-- Removal of a settled promise (wrappers.ts:662-663): `indexOf` followed
by `splice(index, 1)`. When the element is absent `indexOf` yields -1, and
`splice(-1, 1)` removes the last element. -/
def spliceOut (l : List Nat) (pid : Nat) : List Nat :=
  match l.indexOf? pid with
  | some i => l.eraseIdx i
  | none => l.dropLast

/-- One exporter operation (wrappers.ts:614-665 for `export` and `_export`,
677-689 for `shutdown` and `_shutdown`). An export call first fails fast
when shutdown has been requested, then when the concurrency limit is
reached; otherwise it serializes the snapshot and starts a delivery,
appending its promise to the in-flight list. A settlement removes its
promise from the list. A shutdown call memoizes the teardown on first use
and returns the memoized outcome ever after. -/
def expStep (limit : Option Nat) (s : ExporterState) :
    ExpOp → ExporterState × List ExpEvent
  | .exportOp pid =>
      if isCalled s then
        (s, [.callback .failedShutdown])
      else if limitReached limit s.sendingPromises.length then
        (s, [.callback .failedConcurrency])
      else
        ({ s with sendingPromises := s.sendingPromises ++ [pid] },
         [.serialized, .deliveryStarted pid])
  | .settleOp pid =>
      ({ s with sendingPromises := spliceOut s.sendingPromises pid }, [])
  | .shutdownOp =>
      match s.shutdownResult with
      | some snap => (s, [.shutdownReturned snap])
      | none =>
          ({ s with shutdownResult := some s.sendingPromises },
           [.teardownStarted s.sendingPromises,
            .shutdownReturned s.sendingPromises])

/-- Run a sequence of exporter operations, collecting all events. -/
def runOps (limit : Option Nat) :
    ExporterState → List ExpOp → ExporterState × List ExpEvent
  | s, [] => (s, [])
  | s, op :: ops =>
      let step := expStep limit s op
      let rest := runOps limit step.1 ops
      (rest.1, step.2 ++ rest.2)

/-- Number of teardown starts among the events. -/
def teardownCount (evs : List ExpEvent) : Nat :=
  evs.countP fun e =>
    match e with
    | .teardownStarted _ => true
    | _ => false

/-- Outcomes handed to the shutdown callers, in order. -/
def shutdownReturns (evs : List ExpEvent) : List (List Nat) :=
  evs.filterMap fun e =>
    match e with
    | .shutdownReturned snap => some snap
    | _ => none

/-- Number of shutdown calls in an operation sequence. -/
def shutdownOpCount (ops : List ExpOp) : Nat :=
  ops.countP fun op =>
    match op with
    | .shutdownOp => true
    | _ => false

/-- Delivery environment of the flush counterexample: promise 0 rejects at
time 1 (transport failure), every other promise fulfills at time 5. -/
def envC2 : Nat → PromiseSpec := fun n =>
  if n == 0 then ⟨1, false⟩ else ⟨5, true⟩

/-- Exporter state of the flush counterexample: deliveries 0 and 1 are in
flight, shutdown has not been requested. -/
def sC2 : ExporterState := ⟨[0, 1], none⟩

end PushGatewayExporter

namespace Autometrics

theorem counterIncrements_append (a b : List Emission) :
    counterIncrements (a ++ b) = counterIncrements a ++ counterIncrements b :=
  List.filterMap_append a b _

theorem histogramRecords_append (a b : List Emission) :
    histogramRecords (a ++ b) = histogramRecords a ++ histogramRecords b :=
  List.filterMap_append a b _

theorem gaugeNet_append (a b : List Emission) :
    gaugeNet (a ++ b) = gaugeNet a + gaugeNet b := by
  simp [gaugeNet]

/-- C1: the claim requires the caller label of every emission of a wrapped
function to name the nearest enclosing instrumented function active at
invocation time. The code reads the caller context once, at wrap time
(wrappers.ts:278), outside the returned closure. At the failing input,
functions A and B are both wrapped at module load with no instrumented
caller active, and B is invoked inside the body of A, while the caller
context installed by the invocation of A (wrappers.ts:400) is the name A.
The counter emission of B nevertheless carries the no-caller sentinel, not
the name A, refuting the claim on the code; the per-invocation context
scope the code itself installs shows per-invocation capture was the
intent. -/
theorem C1_caller_captured_at_wrap_time :
    invocationContext wA = some "A"
    ∧ (counterIncrements bInsideA.1).map (fun p => labelValue "caller" p.2)
        = [some none]
    ∧ (histogramRecords bInsideA.1).map (labelValue "caller")
        = [some none]
    ∧ some (some "A") ≠ (some (none : Option String)) := by
  refine ⟨rfl, rfl, rfl, by simp⟩

/-- C3: the wrapper returned by autometrics yields exactly the observable
outcome of the underlying function: a synchronous return value unchanged,
a synchronous throw of the same error, a fulfillment value unchanged, and
a rejection of the same error. -/
theorem C3_wrapper_outcome_transparent {α ε : Type} (w : Wrapped α ε)
    (d : Nat) (bodyEms : List Emission) (o : FnOutcome α ε) :
    (wrappedCall w d bodyEms o).2 = o := by
  cases o <;> rfl

/-- C6: counter emissions of a wrap with an objective and of one without
carry identical label key sets, and so do histogram emissions; the
objective fields are always present and default to the empty string when
the corresponding objective field is unset, never omitted. -/
theorem C6_objective_label_shape (fn : String) (m : Option String)
    (r : String) (c : Option String) (o : Objective) :
    (counterLabels fn m r c (some o)).map Prod.fst
        = (counterLabels fn m r c none).map Prod.fst
    ∧ (histogramLabels fn m c (some o)).map Prod.fst
        = (histogramLabels fn m c none).map Prod.fst
    ∧ labelValue "objective_name" (counterLabels fn m r c none)
        = some (some "")
    ∧ labelValue "objective_percentile" (counterLabels fn m r c none)
        = some (some "")
    ∧ labelValue "objective_name" (histogramLabels fn m c none)
        = some (some "")
    ∧ labelValue "objective_latency_threshold" (histogramLabels fn m c none)
        = some (some "")
    ∧ labelValue "objective_percentile" (histogramLabels fn m c none)
        = some (some "")
    ∧ (∀ name sr,
        labelValue "objective_latency_threshold"
            (histogramLabels fn m c (some ⟨name, sr, none⟩))
          = some (some "")
        ∧ labelValue "objective_percentile"
            (histogramLabels fn m c (some ⟨name, sr, none⟩))
          = some (some ""))
    ∧ (∀ name lat,
        labelValue "objective_percentile"
            (counterLabels fn m r c (some ⟨name, none, lat⟩))
          = some (some "")) :=
  ⟨rfl, rfl, rfl, rfl, rfl, rfl, rfl, fun _ _ => ⟨rfl, rfl⟩, fun _ _ => rfl⟩

end Autometrics

namespace Autometrics

theorem recordSuccess_eq_or {α ε : Type} (w : Wrapped α ε) (d : Nat)
    (v : α) :
    recordSuccess w d v = onSuccess w d
    ∨ recordSuccess w d v = onError w d
    ∨ recordSuccess w d v
        = onSuccess w d ++ [.traceMsg "Error in recordErrorIf function: "] := by
  cases hre : w.cfg.recordErrorIf with
  | none => exact Or.inl (by simp [recordSuccess, hre])
  | some p =>
    cases hp : p v with
    | error u => exact Or.inr (Or.inr (by simp [recordSuccess, hre, hp]))
    | ok b =>
      cases b
      · exact Or.inl (by simp [recordSuccess, hre, hp])
      · exact Or.inr (Or.inl (by simp [recordSuccess, hre, hp]))

theorem recordError_eq_or {α ε : Type} (w : Wrapped α ε) (d : Nat)
    (e : ε) :
    recordError w d e = onError w d
    ∨ recordError w d e = onSuccess w d
    ∨ recordError w d e
        = onError w d ++ [.traceMsg "Error in recordSuccessIf function: "] := by
  cases hrs : w.cfg.recordSuccessIf with
  | none => exact Or.inl (by simp [recordError, hrs])
  | some p =>
    cases hp : p e with
    | error u => exact Or.inr (Or.inr (by simp [recordError, hrs, hp]))
    | ok b =>
      cases b
      · exact Or.inl (by simp [recordError, hrs, hp])
      · exact Or.inr (Or.inl (by simp [recordError, hrs, hp]))

theorem gaugeIncCount_append (a b : List Emission) :
    gaugeIncCount (a ++ b) = gaugeIncCount a + gaugeIncCount b := by
  simp [gaugeIncCount, List.countP_append]

theorem gaugeDecCount_append (a b : List Emission) :
    gaugeDecCount (a ++ b) = gaugeDecCount a + gaugeDecCount b := by
  simp [gaugeDecCount, List.countP_append]

theorem gaugeStats_onSuccess {α ε : Type} (w : Wrapped α ε) (d : Nat)
    (h : w.cfg.trackConcurrency = true) :
    gaugeNet (onSuccess w d) = -1
    ∧ gaugeIncCount (onSuccess w d) = 0
    ∧ gaugeDecCount (onSuccess w d) = 1 := by
  simp [onSuccess, h, gaugeNet, gaugeIncCount, gaugeDecCount, gaugeDelta,
    List.countP_append, List.countP_cons]

theorem gaugeStats_onError {α ε : Type} (w : Wrapped α ε) (d : Nat)
    (h : w.cfg.trackConcurrency = true) :
    gaugeNet (onError w d) = -1
    ∧ gaugeIncCount (onError w d) = 0
    ∧ gaugeDecCount (onError w d) = 1 := by
  simp [onError, h, gaugeNet, gaugeIncCount, gaugeDecCount, gaugeDelta,
    List.countP_append, List.countP_cons]

theorem gaugeStats_recordSuccess {α ε : Type} (w : Wrapped α ε) (d : Nat)
    (v : α) (h : w.cfg.trackConcurrency = true) :
    gaugeNet (recordSuccess w d v) = -1
    ∧ gaugeIncCount (recordSuccess w d v) = 0
    ∧ gaugeDecCount (recordSuccess w d v) = 1 := by
  rcases recordSuccess_eq_or w d v with hr | hr | hr <;> rw [hr]
  · exact gaugeStats_onSuccess w d h
  · exact gaugeStats_onError w d h
  · obtain ⟨h1, h2, h3⟩ := gaugeStats_onSuccess w d h
    refine ⟨?_, ?_, ?_⟩
    · rw [gaugeNet_append, h1]; rfl
    · rw [gaugeIncCount_append, h2]; rfl
    · rw [gaugeDecCount_append, h3]; rfl

theorem gaugeStats_recordError {α ε : Type} (w : Wrapped α ε) (d : Nat)
    (e : ε) (h : w.cfg.trackConcurrency = true) :
    gaugeNet (recordError w d e) = -1
    ∧ gaugeIncCount (recordError w d e) = 0
    ∧ gaugeDecCount (recordError w d e) = 1 := by
  rcases recordError_eq_or w d e with hr | hr | hr <;> rw [hr]
  · exact gaugeStats_onError w d h
  · exact gaugeStats_onSuccess w d h
  · obtain ⟨h1, h2, h3⟩ := gaugeStats_onError w d h
    refine ⟨?_, ?_, ?_⟩
    · rw [gaugeNet_append, h1]; rfl
    · rw [gaugeIncCount_append, h2]; rfl
    · rw [gaugeDecCount_append, h3]; rfl

end Autometrics

namespace Autometrics

/-- C7: when a classification predicate itself throws, the call is recorded
with the default classification (success when recordErrorIf throws, error
when recordSuccessIf throws), the predicate failure is traced as a
diagnostic, and the exception never reaches the caller of the wrapped
function, whose observable outcome is unchanged. -/
theorem C7_predicate_throw_defaults {α ε : Type}
    (fn : String) (m : Option String) (c : Option String)
    (o : Option Objective) (track : Bool)
    (p : α → Except Unit Bool) (q : ε → Except Unit Bool)
    (reIf : Option (α → Except Unit Bool))
    (rsIf : Option (ε → Except Unit Bool))
    (d : Nat) (v : α) (e : ε)
    (hp : p v = Except.error ())
    (hq : q e = Except.error ()) :
    recordSuccess (⟨⟨fn, m, o, track, some p, rsIf⟩, c⟩ : Wrapped α ε) d v
      = onSuccess (⟨⟨fn, m, o, track, some p, rsIf⟩, c⟩ : Wrapped α ε) d
        ++ [.traceMsg "Error in recordErrorIf function: "]
    ∧ recordError (⟨⟨fn, m, o, track, reIf, some q⟩, c⟩ : Wrapped α ε) d e
      = onError (⟨⟨fn, m, o, track, reIf, some q⟩, c⟩ : Wrapped α ε) d
        ++ [.traceMsg "Error in recordSuccessIf function: "]
    ∧ ∀ (bodyEms : List Emission) (oc : FnOutcome α ε),
        (wrappedCall (⟨⟨fn, m, o, track, some p, some q⟩, c⟩ : Wrapped α ε) d
            bodyEms oc).2 = oc := by
  refine ⟨?_, ?_, fun b oc => by cases oc <;> rfl⟩
  · simp [recordSuccess, hp]
  · simp [recordError, hq]

/-- Witness for C7 at a concrete input: both predicates throw on every
input, the return value is 3 and the thrown error 4. -/
theorem C7_predicate_throw_defaults_witness :
    recordSuccess
        (⟨⟨"f", some "m", none, false, some (fun _ => Except.error ()), none⟩,
          none⟩ : Wrapped Nat Nat) 0 3
      = onSuccess
          (⟨⟨"f", some "m", none, false, some (fun _ => Except.error ()), none⟩,
            none⟩ : Wrapped Nat Nat) 0
        ++ [.traceMsg "Error in recordErrorIf function: "]
    ∧ recordError
        (⟨⟨"f", some "m", none, false, none, some (fun _ => Except.error ())⟩,
          none⟩ : Wrapped Nat Nat) 0 4
      = onError
          (⟨⟨"f", some "m", none, false, none, some (fun _ => Except.error ())⟩,
            none⟩ : Wrapped Nat Nat) 0
        ++ [.traceMsg "Error in recordSuccessIf function: "]
    ∧ (wrappedCall
        (⟨⟨"f", some "m", none, false, some (fun _ => Except.error ()),
            some (fun _ => Except.error ())⟩, none⟩ : Wrapped Nat Nat) 0 []
        (.ret 3)).2 = FnOutcome.ret 3 := by
  obtain ⟨h1, h2, h3⟩ :=
    C7_predicate_throw_defaults "f" (some "m") none none false
      (fun _ => Except.error ()) (fun _ => Except.error ()) none none
      0 3 4 rfl rfl
  exact ⟨h1, h2, h3 [] (.ret 3)⟩

end Autometrics

namespace Autometrics

/-- C9: with concurrency tracking enabled, every invocation first emits a
gauge increment of one, emits exactly one gauge decrement once the call
settles, whatever the outcome and whatever the classification predicates
do, and the net gauge change contributed by the invocation is zero. -/
theorem C9_concurrency_gauge_balanced {α ε : Type}
    (fn : String) (m : Option String) (c : Option String)
    (o : Option Objective)
    (reIf : Option (α → Except Unit Bool))
    (rsIf : Option (ε → Except Unit Bool))
    (d : Nat) (oc : FnOutcome α ε) :
    gaugeNet
        (wrappedCall (⟨⟨fn, m, o, true, reIf, rsIf⟩, c⟩ : Wrapped α ε) d []
          oc).1 = 0
    ∧ gaugeIncCount
        (wrappedCall (⟨⟨fn, m, o, true, reIf, rsIf⟩, c⟩ : Wrapped α ε) d []
          oc).1 = 1
    ∧ gaugeDecCount
        (wrappedCall (⟨⟨fn, m, o, true, reIf, rsIf⟩, c⟩ : Wrapped α ε) d []
          oc).1 = 1
    ∧ ((wrappedCall (⟨⟨fn, m, o, true, reIf, rsIf⟩, c⟩ : Wrapped α ε) d []
          oc).1).head? = some (.gaugeAdd 1 (gaugeLabels fn m))
    ∧ ∀ bodyEms : List Emission,
        gaugeNet
            (wrappedCall (⟨⟨fn, m, o, true, reIf, rsIf⟩, c⟩ : Wrapped α ε) d
              bodyEms oc).1
          = gaugeNet bodyEms := by
  cases oc with
  | ret v =>
    obtain ⟨h1, h2, h3⟩ :=
      gaugeStats_recordSuccess
        (⟨⟨fn, m, o, true, reIf, rsIf⟩, c⟩ : Wrapped α ε) d v rfl
    have hkey : ∀ b : List Emission,
        (wrappedCall (⟨⟨fn, m, o, true, reIf, rsIf⟩, c⟩ : Wrapped α ε) d b
            (.ret v)).1
          = [Emission.gaugeAdd 1 (gaugeLabels fn m)]
            ++ (b ++ recordSuccess
                  (⟨⟨fn, m, o, true, reIf, rsIf⟩, c⟩ : Wrapped α ε) d v) :=
      fun b => rfl
    refine ⟨?_, ?_, ?_, ?_, ?_⟩
    · rw [hkey, gaugeNet_append, gaugeNet_append, h1]; rfl
    · rw [hkey, gaugeIncCount_append, gaugeIncCount_append, h2]; rfl
    · rw [hkey, gaugeDecCount_append, gaugeDecCount_append, h3]; rfl
    · rw [hkey]; rfl
    · intro b
      rw [hkey b, gaugeNet_append, gaugeNet_append, h1,
        show gaugeNet [Emission.gaugeAdd 1 (gaugeLabels fn m)] = 1 from rfl]
      omega
  | thr e =>
    obtain ⟨h1, h2, h3⟩ :=
      gaugeStats_recordError
        (⟨⟨fn, m, o, true, reIf, rsIf⟩, c⟩ : Wrapped α ε) d e rfl
    have hkey : ∀ b : List Emission,
        (wrappedCall (⟨⟨fn, m, o, true, reIf, rsIf⟩, c⟩ : Wrapped α ε) d b
            (.thr e)).1
          = [Emission.gaugeAdd 1 (gaugeLabels fn m)]
            ++ (b ++ recordError
                  (⟨⟨fn, m, o, true, reIf, rsIf⟩, c⟩ : Wrapped α ε) d e) :=
      fun b => rfl
    refine ⟨?_, ?_, ?_, ?_, ?_⟩
    · rw [hkey, gaugeNet_append, gaugeNet_append, h1]; rfl
    · rw [hkey, gaugeIncCount_append, gaugeIncCount_append, h2]; rfl
    · rw [hkey, gaugeDecCount_append, gaugeDecCount_append, h3]; rfl
    · rw [hkey]; rfl
    · intro b
      rw [hkey b, gaugeNet_append, gaugeNet_append, h1,
        show gaugeNet [Emission.gaugeAdd 1 (gaugeLabels fn m)] = 1 from rfl]
      omega
  | promiseOk v =>
    obtain ⟨h1, h2, h3⟩ :=
      gaugeStats_recordSuccess
        (⟨⟨fn, m, o, true, reIf, rsIf⟩, c⟩ : Wrapped α ε) d v rfl
    have hkey : ∀ b : List Emission,
        (wrappedCall (⟨⟨fn, m, o, true, reIf, rsIf⟩, c⟩ : Wrapped α ε) d b
            (.promiseOk v)).1
          = [Emission.gaugeAdd 1 (gaugeLabels fn m)]
            ++ (b ++ recordSuccess
                  (⟨⟨fn, m, o, true, reIf, rsIf⟩, c⟩ : Wrapped α ε) d v) :=
      fun b => rfl
    refine ⟨?_, ?_, ?_, ?_, ?_⟩
    · rw [hkey, gaugeNet_append, gaugeNet_append, h1]; rfl
    · rw [hkey, gaugeIncCount_append, gaugeIncCount_append, h2]; rfl
    · rw [hkey, gaugeDecCount_append, gaugeDecCount_append, h3]; rfl
    · rw [hkey]; rfl
    · intro b
      rw [hkey b, gaugeNet_append, gaugeNet_append, h1,
        show gaugeNet [Emission.gaugeAdd 1 (gaugeLabels fn m)] = 1 from rfl]
      omega
  | promiseErr e =>
    obtain ⟨h1, h2, h3⟩ :=
      gaugeStats_recordError
        (⟨⟨fn, m, o, true, reIf, rsIf⟩, c⟩ : Wrapped α ε) d e rfl
    have hkey : ∀ b : List Emission,
        (wrappedCall (⟨⟨fn, m, o, true, reIf, rsIf⟩, c⟩ : Wrapped α ε) d b
            (.promiseErr e)).1
          = [Emission.gaugeAdd 1 (gaugeLabels fn m)]
            ++ (b ++ recordError
                  (⟨⟨fn, m, o, true, reIf, rsIf⟩, c⟩ : Wrapped α ε) d e) :=
      fun b => rfl
    refine ⟨?_, ?_, ?_, ?_, ?_⟩
    · rw [hkey, gaugeNet_append, gaugeNet_append, h1]; rfl
    · rw [hkey, gaugeIncCount_append, gaugeIncCount_append, h2]; rfl
    · rw [hkey, gaugeDecCount_append, gaugeDecCount_append, h3]; rfl
    · rw [hkey]; rfl
    · intro b
      rw [hkey b, gaugeNet_append, gaugeNet_append, h1,
        show gaugeNet [Emission.gaugeAdd 1 (gaugeLabels fn m)] = 1 from rfl]
      omega

end Autometrics

namespace Autometrics

/-- C8: a call that completes successfully (synchronously or through a
fulfilled promise) and is not reclassified by recordErrorIf emits exactly
one counter increment with result ok and exactly one histogram record,
and the function, module and caller label values agree on both. -/
theorem C8_success_exactly_one_pair {α ε : Type}
    (fn : String) (m : Option String) (c : Option String)
    (o : Option Objective) (track : Bool)
    (reIf : Option (α → Except Unit Bool))
    (rsIf : Option (ε → Except Unit Bool))
    (d : Nat) (v : α)
    (hpred : ∀ pf, reIf = some pf → pf v = Except.ok false) :
    (counterIncrements
        (wrappedCall (⟨⟨fn, m, o, track, reIf, rsIf⟩, c⟩ : Wrapped α ε) d []
          (.ret v)).1
      = [(1, counterLabels fn m "ok" c o)]
      ∧ histogramRecords
          (wrappedCall (⟨⟨fn, m, o, track, reIf, rsIf⟩, c⟩ : Wrapped α ε) d []
            (.ret v)).1
        = [histogramLabels fn m c o])
    ∧ (counterIncrements
        (wrappedCall (⟨⟨fn, m, o, track, reIf, rsIf⟩, c⟩ : Wrapped α ε) d []
          (.promiseOk v)).1
      = [(1, counterLabels fn m "ok" c o)]
      ∧ histogramRecords
          (wrappedCall (⟨⟨fn, m, o, track, reIf, rsIf⟩, c⟩ : Wrapped α ε) d []
            (.promiseOk v)).1
        = [histogramLabels fn m c o])
    ∧ labelValue "function" (counterLabels fn m "ok" c o)
        = labelValue "function" (histogramLabels fn m c o)
    ∧ labelValue "module" (counterLabels fn m "ok" c o)
        = labelValue "module" (histogramLabels fn m c o)
    ∧ labelValue "caller" (counterLabels fn m "ok" c o)
        = labelValue "caller" (histogramLabels fn m c o) := by
  have hrs : recordSuccess (⟨⟨fn, m, o, track, reIf, rsIf⟩, c⟩ : Wrapped α ε)
      d v = onSuccess (⟨⟨fn, m, o, track, reIf, rsIf⟩, c⟩ : Wrapped α ε) d := by
    cases reIf with
    | none => rfl
    | some pf => simp [recordSuccess, hpred pf rfl]
  have hr1 : (wrappedCall (⟨⟨fn, m, o, track, reIf, rsIf⟩, c⟩ : Wrapped α ε)
      d [] (FnOutcome.ret v)).1
      = (if track then [Emission.gaugeAdd 1 (gaugeLabels fn m)] else [])
        ++ ([] ++ recordSuccess
              (⟨⟨fn, m, o, track, reIf, rsIf⟩, c⟩ : Wrapped α ε) d v) := rfl
  have hr2 : (wrappedCall (⟨⟨fn, m, o, track, reIf, rsIf⟩, c⟩ : Wrapped α ε)
      d [] (FnOutcome.promiseOk v)).1
      = (if track then [Emission.gaugeAdd 1 (gaugeLabels fn m)] else [])
        ++ ([] ++ recordSuccess
              (⟨⟨fn, m, o, track, reIf, rsIf⟩, c⟩ : Wrapped α ε) d v) := rfl
  refine ⟨⟨?_, ?_⟩, ⟨?_, ?_⟩, rfl, rfl, rfl⟩
  · rw [hr1, hrs]
    cases track <;>
      simp [counterIncrements, histogramRecords, onSuccess,
        List.filterMap_append, counterLabels, histogramLabels]
  · rw [hr1, hrs]
    cases track <;>
      simp [counterIncrements, histogramRecords, onSuccess,
        List.filterMap_append, counterLabels, histogramLabels]
  · rw [hr2, hrs]
    cases track <;>
      simp [counterIncrements, histogramRecords, onSuccess,
        List.filterMap_append, counterLabels, histogramLabels]
  · rw [hr2, hrs]
    cases track <;>
      simp [counterIncrements, histogramRecords, onSuccess,
        List.filterMap_append, counterLabels, histogramLabels]

end Autometrics

namespace Autometrics

/-- Witness for C8 at a concrete input: a wrap with no options beyond the
names, returning 3 synchronously and through a fulfilled promise. -/
theorem C8_success_exactly_one_pair_witness :
    (counterIncrements
        (wrappedCall
          (⟨⟨"f", some "m", none, false, none, none⟩, none⟩ : Wrapped Nat Nat)
          0 [] (.ret 3)).1
      = [(1, counterLabels "f" (some "m") "ok" none none)]
      ∧ histogramRecords
          (wrappedCall
            (⟨⟨"f", some "m", none, false, none, none⟩, none⟩ : Wrapped Nat Nat)
            0 [] (.ret 3)).1
        = [histogramLabels "f" (some "m") none none])
    ∧ (counterIncrements
        (wrappedCall
          (⟨⟨"f", some "m", none, false, none, none⟩, none⟩ : Wrapped Nat Nat)
          0 [] (.promiseOk 3)).1
      = [(1, counterLabels "f" (some "m") "ok" none none)]
      ∧ histogramRecords
          (wrappedCall
            (⟨⟨"f", some "m", none, false, none, none⟩, none⟩ : Wrapped Nat Nat)
            0 [] (.promiseOk 3)).1
        = [histogramLabels "f" (some "m") none none])
    ∧ labelValue "function" (counterLabels "f" (some "m") "ok" none none)
        = labelValue "function" (histogramLabels "f" (some "m") none none)
    ∧ labelValue "module" (counterLabels "f" (some "m") "ok" none none)
        = labelValue "module" (histogramLabels "f" (some "m") none none)
    ∧ labelValue "caller" (counterLabels "f" (some "m") "ok" none none)
        = labelValue "caller" (histogramLabels "f" (some "m") none none) :=
  C8_success_exactly_one_pair "f" (some "m") none none false none none 0 3
    (fun _ h => Option.noConfusion h)

end Autometrics

namespace PushGatewayExporter

theorem init_le_foldl_max (l : List Nat) (a : Nat) :
    a ≤ l.foldl Nat.max a := by
  induction l generalizing a with
  | nil => exact Nat.le_refl a
  | cons x l ih =>
    simp only [List.foldl_cons]
    exact Nat.le_trans (Nat.le_max_left a x) (ih (Nat.max a x))

theorem mem_le_foldl_max (l : List Nat) (a : Nat) :
    ∀ x ∈ l, x ≤ l.foldl Nat.max a := by
  induction l generalizing a with
  | nil => intro x hx; cases hx
  | cons y l ih =>
    intro x hx
    simp only [List.foldl_cons]
    rcases List.mem_cons.mp hx with rfl | hx
    · exact Nat.le_trans (Nat.le_max_right a x) (init_le_foldl_max l _)
    · exact ih (Nat.max a y) x hx

theorem foldl_min_le_init (l : List Nat) (a : Nat) :
    l.foldl Nat.min a ≤ a := by
  induction l generalizing a with
  | nil => exact Nat.le_refl a
  | cons x l ih =>
    simp only [List.foldl_cons]
    exact Nat.le_trans (ih (Nat.min a x)) (Nat.min_le_left a x)

theorem foldl_min_le_mem (l : List Nat) (a : Nat) :
    ∀ x ∈ l, l.foldl Nat.min a ≤ x := by
  induction l generalizing a with
  | nil => intro x hx; cases hx
  | cons y l ih =>
    intro x hx
    simp only [List.foldl_cons]
    rcases List.mem_cons.mp hx with rfl | hx
    · exact Nat.le_trans (foldl_min_le_init l _) (Nat.min_le_right a x)
    · exact ih (Nat.min a y) x hx

theorem foldl_min_attained (l : List Nat) (a : Nat) :
    l.foldl Nat.min a = a ∨ l.foldl Nat.min a ∈ l := by
  induction l generalizing a with
  | nil => exact Or.inl rfl
  | cons y l ih =>
    simp only [List.foldl_cons]
    rcases ih (Nat.min a y) with h | h
    · rcases Nat.le_total a y with hay | hya
      · left; rw [h]; exact Nat.min_eq_left hay
      · right
        have hy : Nat.min a y = y := Nat.min_eq_right hya
        rw [h, hy]
        exact List.mem_cons_self y l
    · right; exact List.mem_cons_of_mem y h

theorem promiseAll_all_fulfill (ps : List PromiseSpec)
    (h : ∀ p ∈ ps, p.fulfills = true) :
    (promiseAll ps).fulfills = true
    ∧ ∀ p ∈ ps, p.settleTime ≤ (promiseAll ps).settleTime := by
  have hfil : (ps.filter fun p => !p.fulfills) = [] :=
    List.filter_eq_nil_iff.mpr (by intro p hp; simp [h p hp])
  have hval : promiseAll ps
      = ⟨(ps.map (·.settleTime)).foldl Nat.max 0, true⟩ := by
    unfold promiseAll
    rw [hfil]
    rfl
  rw [hval]
  exact ⟨rfl, fun p hp =>
    mem_le_foldl_max _ 0 p.settleTime
      (List.mem_map_of_mem (·.settleTime) hp)⟩

theorem promiseAll_rejects (ps : List PromiseSpec)
    (hex : ∃ p ∈ ps, p.fulfills = false) :
    (promiseAll ps).fulfills = false
    ∧ (∃ p ∈ ps, p.fulfills = false
        ∧ (promiseAll ps).settleTime = p.settleTime)
    ∧ ∀ p ∈ ps, p.fulfills = false →
        (promiseAll ps).settleTime ≤ p.settleTime := by
  have hne : (ps.filter fun p => !p.fulfills) ≠ [] := by
    obtain ⟨p, hp, hf⟩ := hex
    intro h0
    have hmem : p ∈ ps.filter fun p => !p.fulfills :=
      List.mem_filter.mpr ⟨hp, by simp [hf]⟩
    rw [h0] at hmem
    cases hmem
  obtain ⟨q, qs, hcons⟩ := List.exists_cons_of_ne_nil hne
  have hmap : (ps.filter fun p => !p.fulfills).map (·.settleTime)
      = q.settleTime :: qs.map (·.settleTime) := by rw [hcons]; rfl
  have hval : promiseAll ps
      = ⟨(qs.map (·.settleTime)).foldl Nat.min q.settleTime, false⟩ := by
    unfold promiseAll
    rw [hmap]
  have hsub : ∀ p, p ∈ ps.filter (fun p => !p.fulfills) →
      p ∈ ps ∧ p.fulfills = false := by
    intro p hp
    obtain ⟨h1, h2⟩ := List.mem_filter.mp hp
    exact ⟨h1, by simpa using h2⟩
  refine ⟨by rw [hval], ?_, ?_⟩
  · rcases foldl_min_attained (qs.map (·.settleTime)) q.settleTime with h | h
    · obtain ⟨hq1, hq2⟩ := hsub q (hcons ▸ List.mem_cons_self q qs)
      exact ⟨q, hq1, hq2, by rw [hval, h]⟩
    · obtain ⟨r, hr, hrt⟩ := List.mem_map.mp h
      obtain ⟨hr1, hr2⟩ := hsub r (hcons ▸ List.mem_cons_of_mem q hr)
      exact ⟨r, hr1, hr2, by rw [hval]; exact hrt.symm⟩
  · intro p hp hf
    have hmemf : p ∈ ps.filter fun p => !p.fulfills :=
      List.mem_filter.mpr ⟨hp, by simp [hf]⟩
    rw [hcons] at hmemf
    rw [hval]
    rcases List.mem_cons.mp hmemf with rfl | hmemf
    · exact Nat.le_trans (foldl_min_le_init _ _) (Nat.le_refl _)
    · exact foldl_min_le_mem _ _ p.settleTime
        (List.mem_map_of_mem (·.settleTime) hmemf)

end PushGatewayExporter

namespace PushGatewayExporter

/-- C2 counterexample: with deliveries 0 and 1 in flight, where delivery 0
rejects at time 1 and delivery 1 fulfills at time 5, forceFlush settles
(rejects) at time 1, before the in-flight delivery 1 has settled. This
refutes the claim that flush settles only after every in-flight delivery
has settled whether each succeeds or fails: Promise.all short-circuits on
the first rejection, and the raw fetch promises tracked in
sendingPromises reject on transport failure. -/
theorem C2_flush_counterexample :
    ¬ ∀ pid ∈ sC2.sendingPromises,
        (envC2 pid).settleTime ≤ (forceFlush envC2 sC2).settleTime := by
  decide

/-- C2 amended: when every delivery that was in flight at the flush call
fulfills, the flush fulfills and settles no earlier than each of them;
when some in-flight delivery rejects, the flush rejects exactly when the
first rejecting delivery settles, which can be before other in-flight
deliveries settle. -/
theorem C2_flush_amended (env : Nat → PromiseSpec) (s : ExporterState) :
    ((∀ pid ∈ s.sendingPromises, (env pid).fulfills = true) →
      (forceFlush env s).fulfills = true
      ∧ ∀ pid ∈ s.sendingPromises,
          (env pid).settleTime ≤ (forceFlush env s).settleTime)
    ∧ ((∃ pid ∈ s.sendingPromises, (env pid).fulfills = false) →
      (forceFlush env s).fulfills = false
      ∧ (∃ pid ∈ s.sendingPromises, (env pid).fulfills = false
          ∧ (forceFlush env s).settleTime = (env pid).settleTime)
      ∧ ∀ pid ∈ s.sendingPromises, (env pid).fulfills = false →
          (forceFlush env s).settleTime ≤ (env pid).settleTime) := by
  constructor
  · intro h
    obtain ⟨h1, h2⟩ := promiseAll_all_fulfill (s.sendingPromises.map env)
      (by
        intro p hp
        obtain ⟨pid, hpid, rfl⟩ := List.mem_map.mp hp
        exact h pid hpid)
    exact ⟨h1, fun pid hpid => h2 (env pid) (List.mem_map_of_mem env hpid)⟩
  · intro h
    obtain ⟨pid0, hpid0, hf0⟩ := h
    obtain ⟨h1, h2, h3⟩ := promiseAll_rejects (s.sendingPromises.map env)
      ⟨env pid0, List.mem_map_of_mem env hpid0, hf0⟩
    refine ⟨h1, ?_, ?_⟩
    · obtain ⟨p, hp, hpf, hpt⟩ := h2
      obtain ⟨pid, hpid, rfl⟩ := List.mem_map.mp hp
      exact ⟨pid, hpid, hpf, hpt⟩
    · intro pid hpid hf
      exact h3 (env pid) (List.mem_map_of_mem env hpid) hf

/-- Witness for C2 at concrete inputs: a single fulfilled delivery makes the
flush fulfill, and the counterexample environment makes it reject. -/
theorem C2_flush_amended_witness :
    (forceFlush (fun _ => ⟨2, true⟩) ⟨[0], none⟩).fulfills = true
    ∧ (forceFlush envC2 sC2).fulfills = false := by
  constructor
  · exact ((C2_flush_amended (fun _ => ⟨2, true⟩) ⟨[0], none⟩).1
      (by decide)).1
  · exact ((C2_flush_amended envC2 sC2).2 (by decide)).1

/-- C10: as soon as shutdown has been requested, even while its teardown
flush is still pending, every export call invokes the result callback
synchronously with the shutdown failure, without serializing the snapshot
and without starting a delivery: the state is unchanged and the only event
is the callback. -/
theorem C10_export_fails_fast_after_shutdown (limit : Option Nat)
    (s : ExporterState) (pid : Nat) (h : isCalled s = true) :
    expStep limit s (.exportOp pid) = (s, [.callback .failedShutdown]) := by
  simp [expStep, h]

/-- Witness for C10 at a concrete input: shutdown has been requested while
delivery 3 is still in flight, so the teardown flush has not completed,
and export call 9 fails fast. -/
theorem C10_export_fails_fast_witness :
    expStep none ⟨[3], some [3]⟩ (.exportOp 9)
      = (⟨[3], some [3]⟩, [.callback .failedShutdown]) :=
  C10_export_fails_fast_after_shutdown none ⟨[3], some [3]⟩ 9 rfl

end PushGatewayExporter

namespace PushGatewayExporter

theorem teardownCount_append (a b : List ExpEvent) :
    teardownCount (a ++ b) = teardownCount a + teardownCount b := by
  simp [teardownCount, List.countP_append]

theorem shutdownReturns_append (a b : List ExpEvent) :
    shutdownReturns (a ++ b) = shutdownReturns a ++ shutdownReturns b :=
  List.filterMap_append a b _

theorem runOps_cons (limit : Option Nat) (s : ExporterState) (op : ExpOp)
    (ops : List ExpOp) :
    runOps limit s (op :: ops)
      = ((runOps limit (expStep limit s op).1 ops).1,
         (expStep limit s op).2
           ++ (runOps limit (expStep limit s op).1 ops).2) := rfl

theorem spliceOut_length_le (l : List Nat) (pid : Nat) :
    (spliceOut l pid).length ≤ l.length := by
  unfold spliceOut
  cases h : l.indexOf? pid with
  | none =>
    simp only [List.length_dropLast]
    omega
  | some i =>
    rw [List.length_eraseIdx]
    split <;> omega

theorem expStep_preserves_length (l : Nat) (s : ExporterState) (op : ExpOp)
    (hs : s.sendingPromises.length ≤ l) :
    ((expStep (some l) s op).1).sendingPromises.length ≤ l := by
  cases op with
  | exportOp pid =>
    cases hc : isCalled s
    · cases hlr : limitReached (some l) s.sendingPromises.length
      · have hlt : ¬ l ≤ s.sendingPromises.length := by
          simpa [limitReached] using hlr
        simp [expStep, hc, hlr, List.length_append]
        omega
      · simp [expStep, hc, hlr]
        exact hs
    · simp [expStep, hc]
      exact hs
  | settleOp pid =>
    simp only [expStep]
    exact Nat.le_trans (spliceOut_length_le _ _) hs
  | shutdownOp =>
    cases h : s.shutdownResult <;> simp [expStep, h] <;> exact hs

theorem runOps_length_le (l : Nat) (ops : List ExpOp) :
    ∀ s : ExporterState, s.sendingPromises.length ≤ l →
      ((runOps (some l) s ops).1).sendingPromises.length ≤ l := by
  induction ops with
  | nil => intro s hs; exact hs
  | cons op ops ih =>
    intro s hs
    rw [runOps_cons]
    exact ih _ (expStep_preserves_length l s op hs)

theorem runOps_after_shutdown (limit : Option Nat) (snap : List Nat)
    (ops : List ExpOp) :
    ∀ s : ExporterState, s.shutdownResult = some snap →
      teardownCount ((runOps limit s ops).2) = 0
      ∧ ∀ x ∈ shutdownReturns ((runOps limit s ops).2), x = snap := by
  induction ops with
  | nil =>
    intro s hs
    exact ⟨rfl, by intro x hx; cases hx⟩
  | cons op ops ih =>
    intro s hs
    cases op with
    | exportOp pid =>
      have hc : isCalled s = true := by simp [isCalled, hs]
      have hstep : expStep limit s (.exportOp pid)
          = (s, [.callback .failedShutdown]) := by simp [expStep, hc]
      obtain ⟨ih1, ih2⟩ := ih s hs
      rw [runOps_cons, hstep]
      refine ⟨?_, ?_⟩
      · rw [teardownCount_append, ih1]; rfl
      · intro x hx
        rw [shutdownReturns_append] at hx
        rcases List.mem_append.mp hx with hx | hx
        · exact absurd hx (by simp [shutdownReturns])
        · exact ih2 x hx
    | settleOp pid =>
      have hstep : expStep limit s (.settleOp pid)
          = ({ s with sendingPromises := spliceOut s.sendingPromises pid },
             []) := rfl
      obtain ⟨ih1, ih2⟩ :=
        ih { s with sendingPromises := spliceOut s.sendingPromises pid } hs
      rw [runOps_cons, hstep]
      exact ⟨ih1, ih2⟩
    | shutdownOp =>
      have hstep : expStep limit s .shutdownOp
          = (s, [.shutdownReturned snap]) := by simp [expStep, hs]
      obtain ⟨ih1, ih2⟩ := ih s hs
      rw [runOps_cons, hstep]
      refine ⟨?_, ?_⟩
      · rw [teardownCount_append, ih1]; rfl
      · intro x hx
        rw [shutdownReturns_append] at hx
        rcases List.mem_append.mp hx with hx | hx
        · have : x ∈ [snap] := by simpa [shutdownReturns] using hx
          rcases List.mem_singleton.mp this with rfl
          rfl
        · exact ih2 x hx

end PushGatewayExporter

namespace PushGatewayExporter

theorem runOps_shutdown_stats (limit : Option Nat) (ops : List ExpOp) :
    ∀ s : ExporterState, s.shutdownResult = none →
      teardownCount ((runOps limit s ops).2) = min (shutdownOpCount ops) 1
      ∧ List.Pairwise Eq (shutdownReturns ((runOps limit s ops).2)) := by
  induction ops with
  | nil =>
    intro s hs
    exact ⟨rfl, List.Pairwise.nil⟩
  | cons op ops ih =>
    intro s hs
    cases op with
    | exportOp pid =>
      have hc : isCalled s = false := by simp [isCalled, hs]
      have hcount : shutdownOpCount (ExpOp.exportOp pid :: ops)
          = shutdownOpCount ops := by
        simp [shutdownOpCount, List.countP_cons]
      cases hlr : limitReached limit s.sendingPromises.length with
      | false =>
        have hstep : expStep limit s (.exportOp pid)
            = ({ s with sendingPromises := s.sendingPromises ++ [pid] },
               [.serialized, .deliveryStarted pid]) := by
          simp [expStep, hc, hlr]
        obtain ⟨ih1, ih2⟩ :=
          ih { s with sendingPromises := s.sendingPromises ++ [pid] } hs
        rw [runOps_cons, hstep, hcount]
        refine ⟨?_, ?_⟩
        · rw [teardownCount_append, ih1]; simp [teardownCount]
        · rw [shutdownReturns_append,
            show shutdownReturns
                [ExpEvent.serialized, ExpEvent.deliveryStarted pid] = []
              from rfl,
            List.nil_append]
          exact ih2
      | true =>
        have hstep : expStep limit s (.exportOp pid)
            = (s, [.callback .failedConcurrency]) := by
          simp [expStep, hc, hlr]
        obtain ⟨ih1, ih2⟩ := ih s hs
        rw [runOps_cons, hstep, hcount]
        refine ⟨?_, ?_⟩
        · rw [teardownCount_append, ih1]; simp [teardownCount]
        · rw [shutdownReturns_append,
            show shutdownReturns [ExpEvent.callback .failedConcurrency] = []
              from rfl,
            List.nil_append]
          exact ih2
    | settleOp pid =>
      have hstep : expStep limit s (.settleOp pid)
          = ({ s with sendingPromises := spliceOut s.sendingPromises pid },
             []) := rfl
      have hcount : shutdownOpCount (ExpOp.settleOp pid :: ops)
          = shutdownOpCount ops := by
        simp [shutdownOpCount, List.countP_cons]
      obtain ⟨ih1, ih2⟩ :=
        ih { s with sendingPromises := spliceOut s.sendingPromises pid } hs
      rw [runOps_cons, hstep, hcount]
      exact ⟨ih1, ih2⟩
    | shutdownOp =>
      have hstep : expStep limit s .shutdownOp
          = ({ s with shutdownResult := some s.sendingPromises },
             [.teardownStarted s.sendingPromises,
              .shutdownReturned s.sendingPromises]) := by
        simp [expStep, hs]
      obtain ⟨a1, a2⟩ :=
        runOps_after_shutdown limit s.sendingPromises ops
          { s with shutdownResult := some s.sendingPromises } rfl
      rw [runOps_cons, hstep]
      refine ⟨?_, ?_⟩
      · rw [teardownCount_append, a1,
          show teardownCount
              [ExpEvent.teardownStarted s.sendingPromises,
               ExpEvent.shutdownReturned s.sendingPromises] = 1 from rfl]
        have h1 : 1 ≤ shutdownOpCount (ExpOp.shutdownOp :: ops) := by
          simp [shutdownOpCount, List.countP_cons]
        rw [Nat.min_eq_right h1]
      · have hall : ∀ x ∈ shutdownReturns
            ([ExpEvent.teardownStarted s.sendingPromises,
              ExpEvent.shutdownReturned s.sendingPromises]
              ++ (runOps limit
                    { s with shutdownResult := some s.sendingPromises }
                    ops).2),
            x = s.sendingPromises := by
          intro x hx
          rw [shutdownReturns_append] at hx
          rcases List.mem_append.mp hx with hx | hx
          · have : x ∈ [s.sendingPromises] := by
              simpa [shutdownReturns] using hx
            exact List.mem_singleton.mp this
          · exact a2 x hx
        exact List.pairwise_of_forall_mem_list
          (fun a ha b hb => (hall a ha).trans (hall b hb).symm)

/-- C4: shutdown on the push exporter is idempotent: across any sequence of
exporter operations the teardown (the flush of the in-flight deliveries
memoized by the one-shot future) starts exactly once when at least one
shutdown call occurs and never more than once, and every shutdown caller
receives the same memoized outcome. -/
theorem C4_shutdown_idempotent (limit : Option Nat) (ops : List ExpOp) :
    teardownCount ((runOps limit initial ops).2)
      = min (shutdownOpCount ops) 1
    ∧ List.Pairwise Eq (shutdownReturns ((runOps limit initial ops).2)) :=
  runOps_shutdown_stats limit ops initial rfl

end PushGatewayExporter

namespace PushGatewayExporter

/-- C5 counterexample: with concurrencyLimit 0 and shutdown already
requested, the in-flight count (zero) has reached the limit, yet the
export callback receives the shutdown failure, not the concurrency-limit
failure, because the shutdown check precedes the concurrency check
(wrappers.ts:618 before 626). The state is reachable from the initial
exporter by a single shutdown call. -/
theorem C5_concurrency_counterexample :
    runOps (some 0) initial [.shutdownOp, .exportOp 5]
      = (⟨[], some []⟩,
         [.teardownStarted [], .shutdownReturned [],
          .callback .failedShutdown])
    ∧ limitReached (some 0)
        ((⟨[], some []⟩ : ExporterState)).sendingPromises.length = true
    ∧ ExpEvent.callback .failedShutdown
        ≠ ExpEvent.callback .failedConcurrency := by
  refine ⟨rfl, rfl, by decide⟩

/-- C5 amended: when shutdown has not been requested and the in-flight
count has reached concurrencyLimit, the export callback is invoked
immediately with the concurrency-limit failure; whenever the count has
reached the limit no delivery is started and the state is unchanged
(though after shutdown the reported failure is the shutdown one); and the
in-flight list length never exceeds a finite concurrencyLimit on any
operation sequence from the initial exporter. -/
theorem C5_concurrency_admission (l : Nat) (s : ExporterState) (pid : Nat)
    (ops : List ExpOp) :
    (isCalled s = false →
      limitReached (some l) s.sendingPromises.length = true →
      expStep (some l) s (.exportOp pid)
        = (s, [.callback .failedConcurrency]))
    ∧ (limitReached (some l) s.sendingPromises.length = true →
      (expStep (some l) s (.exportOp pid)).1 = s)
    ∧ ((runOps (some l) initial ops).1).sendingPromises.length ≤ l := by
  refine ⟨?_, ?_, ?_⟩
  · intro h1 h2
    simp [expStep, h1, h2]
  · intro h2
    cases hc : isCalled s
    · simp [expStep, hc, h2]
    · simp [expStep, hc]
  · exact runOps_length_le l ops initial (Nat.zero_le l)

/-- Witness for C5 at concrete inputs: with limit 1 and delivery 7 in
flight, export call 8 is rejected with the concurrency failure and the
state is unchanged; and a run of three operations from the initial
exporter keeps at most one delivery in flight. -/
theorem C5_concurrency_admission_witness :
    expStep (some 1) ⟨[7], none⟩ (.exportOp 8)
      = (⟨[7], none⟩, [.callback .failedConcurrency])
    ∧ ((runOps (some 1) initial
          [.exportOp 1, .exportOp 2, .shutdownOp]).1).sendingPromises.length
        ≤ 1 := by
  constructor
  · exact (C5_concurrency_admission 1 ⟨[7], none⟩ 8 []).1 rfl rfl
  · exact (C5_concurrency_admission 1 ⟨[7], none⟩ 8
      [.exportOp 1, .exportOp 2, .shutdownOp]).2.2

end PushGatewayExporter
